import Mathlib

/-!
# Verification of the template-editor backend (`main.py`)

Shallow embedding of the two non-trivial components of the repository:
the template preview generator and the design store (save / get / export),
together with the listing endpoint's template enumeration.

Filesystem directories are modelled as flat, filename-addressed association
lists.  Fresh randomness (`uuid.uuid4().hex`) is passed in as an explicit
string parameter to each operation that consumes it.  Image decoding
(`PIL.Image.open` and the subsequent resize/save) is modelled by an oracle
giving either the source dimensions or a failure.
-/

namespace TemplatesApp

/-! ## Flat directories: filename-addressed maps -/

/-- A flat directory: an association list from filename to content.
The head-most binding for a key is the current content of that file. -/
abbrev FileMap (α : Type) : Type := List (String × α)

/-- Remove every binding for filename `q` (helper for overwriting writes). -/
def removeFile {α : Type} : FileMap α → String → FileMap α
  | [], _ => []
  | (k, v) :: rest, q =>
    if k = q then removeFile rest q else (k, v) :: removeFile rest q

/-- Writing a file: `open(path, "w")` truncates/overwrites, so the new
content replaces any previous binding for the same filename. -/
def setFile {α : Type} (st : FileMap α) (q : String) (v : α) : FileMap α :=
  (q, v) :: removeFile st q

/-- Reading a file: the current content of filename `q`, if the file exists. -/
def getFile {α : Type} : FileMap α → String → Option α
  | [], _ => none
  | (k, v) :: rest, q => if q = k then some v else getFile rest q

theorem getFile_removeFile {α : Type} (st : FileMap α) (q k : String)
    (h : k ≠ q) : getFile (removeFile st q) k = getFile st k := by
  induction st with
  | nil => rfl
  | cons p rest ih =>
    obtain ⟨k', v⟩ := p
    by_cases hk : k' = q
    · subst hk
      simp [removeFile, getFile, h, ih]
    · simp only [removeFile, if_neg hk, getFile]
      by_cases hq : k = k'
      · simp [hq]
      · simp [hq, ih]

theorem getFile_setFile_self {α : Type} (st : FileMap α) (q : String) (v : α) :
    getFile (setFile st q v) q = some v := by
  simp [setFile, getFile]

theorem getFile_setFile_ne {α : Type} (st : FileMap α) (q k : String) (v : α)
    (h : k ≠ q) : getFile (setFile st q v) k = getFile st k := by
  simp only [setFile, getFile, if_neg h]
  exact getFile_removeFile st q k h

/-! ## JSON documents and stored file contents -/

/-- JSON values: the payloads carried in `design_json` (`Dict[str, Any]`
on the Python side).  "Deep equality" of documents is equality of `Json`
values. -/
inductive Json : Type where
  | null : Json
  | bool : Bool → Json
  | num : Int → Json
  | str : String → Json
  | arr : List Json → Json
  | obj : List (String × Json) → Json

/-- The design document written by `save_design`:
`{"design_id": ..., "template_id": ..., "design": ...}`. -/
structure DesignDoc where
  design_id : String
  template_id : String
  design : Json

/-- Content of a file in the designs directory: either a design document
serialized as JSON (written by `save_design`, re-parsed by `get_design`),
or raw bytes (written verbatim by `export_image`).  `json.load` on a raw
binary artifact fails; that failure is `GetResult.loadError` below. -/
inductive FileData : Type where
  | design : DesignDoc → FileData
  | raw : List Nat → FileData

/-- The designs directory (`DESIGNS_DIR`). -/
abbrev Store : Type := FileMap FileData

/-! ## Python string/option helpers used by the handlers -/

/-- Python's `x or default` on an optional string: `None` and the empty
string are falsy, any other string is used as-is. -/
def pyOrStr (x : Option String) (default : String) : String :=
  match x with
  | none => default
  | some s => if s = "" then default else s

/-- Python slicing `s[:n]`. -/
def strTake (s : String) (n : Nat) : String :=
  ⟨s.data.take n⟩

/-- Python's `s.startswith(p)`. -/
def pyStartsWith (s p : String) : Bool :=
  p.data.isPrefixOf s.data

/-! ## The design store: `save_design` and `get_design` -/

/-- Request body of `POST /save` (`class SavePayload`); `design_id`
defaults to `None`. -/
structure SavePayload where
  design_id : Option String
  template_id : String
  design_json : Json

/-- The identifier generated when none is supplied:
`f"design_{uuid.uuid4().hex[:12]}"`. -/
def genDesignId (uuidHex : String) : String :=
  "design_" ++ strTake uuidHex 12

/-- `save_design` (`POST /save`): choose the identifier with Python `or`
semantics, write the document to `<design_id>.json` in the designs
directory, and return the new directory state together with the
identifier reported in the response. -/
def save_design (st : Store) (payload : SavePayload) (uuidHex : String) :
    Store × String :=
  let design_id := pyOrStr payload.design_id (genDesignId uuidHex)
  let path := design_id ++ ".json"
  (setFile st path
    (FileData.design
      { design_id := design_id
        template_id := payload.template_id
        design := payload.design_json }),
   design_id)

/-- Outcome of `GET /design/{design_id}`: the parsed document, an
HTTP 404 (`HTTPException(status_code=404)`), or a `json.load` failure on a
file that does not hold a JSON design document. -/
inductive GetResult : Type where
  | ok : DesignDoc → GetResult
  | notFound : GetResult
  | loadError : GetResult

/-- `get_design` (`GET /design/{design_id}`): 404 when
`<design_id>.json` does not exist, otherwise parse and return the stored
file.  The handler performs no writes, so the directory is returned
unchanged. -/
def get_design (st : Store) (design_id : String) : GetResult × Store :=
  let path := design_id ++ ".json"
  match getFile st path with
  | none => (GetResult.notFound, st)
  | some (FileData.design doc) => (GetResult.ok doc, st)
  | some (FileData.raw _) => (GetResult.loadError, st)

/-! ## Base64 (model of Python `base64.b64decode`, plus an encoder used to
state round-trip properties about valid payloads) -/

/-- The standard base64 alphabet, in value order. -/
def b64Alphabet : List Char :=
  "ABCDEFGHIJKLMNOPQRSTUVWXYZabcdefghijklmnopqrstuvwxyz0123456789+/".data

/-- The alphabet character for a 6-bit value. -/
def b64Char (n : Nat) : Char :=
  b64Alphabet.getD (n % 64) 'A'

/-- The 6-bit value of an alphabet character, `none` for any other
character (including the padding character). -/
def b64Val (c : Char) : Option Nat :=
  b64Alphabet.indexOf? c

/-- Whether a character belongs to the base64 alphabet. -/
def isB64Char (c : Char) : Bool :=
  (b64Val c).isSome

/-- Decode a filtered character stream in groups of four, with canonical
`=` padding allowed only in the final group.  `none` models the
`binascii.Error` raised on malformed input. -/
def decodeB64Chunks : List Char → Option (List Nat)
  | [] => some []
  | a :: b :: c :: d :: rest =>
    match b64Val a, b64Val b with
    | some va, some vb =>
      if c = '=' then
        if d = '=' ∧ rest = [] then some [va * 4 + vb / 16] else none
      else
        match b64Val c with
        | some vc =>
          if d = '=' then
            if rest = [] then some [va * 4 + vb / 16, vb % 16 * 16 + vc / 4]
            else none
          else
            match b64Val d with
            | some vd =>
              match decodeB64Chunks rest with
              | some tail =>
                some ((va * 4 + vb / 16) :: (vb % 16 * 16 + vc / 4) ::
                      (vc % 4 * 64 + vd) :: tail)
              | none => none
            | none => none
        | none => none
    | _, _ => none
  | _ => none

/-- Model of `base64.b64decode(s)` with the default `validate=False`:
characters outside the alphabet and padding are discarded first, then the
remainder must be well-formed groups of four.  Returns the decoded bytes,
or `none` for the exception on malformed input. -/
def base64Decode (s : String) : Option (List Nat) :=
  decodeB64Chunks (s.data.filter fun c => isB64Char c || c == '=')

/-- Standard base64 encoding of a byte list, used to state properties
about valid payloads submitted by a client. -/
def encodeB64Chunks : List Nat → List Char
  | [] => []
  | [a] => [b64Char (a / 4), b64Char (a % 4 * 16), '=', '=']
  | [a, b] =>
    [b64Char (a / 4), b64Char (a % 4 * 16 + b / 16), b64Char (b % 16 * 4), '=']
  | a :: b :: c :: rest =>
    b64Char (a / 4) :: b64Char (a % 4 * 16 + b / 16) ::
    b64Char (b % 16 * 4 + c / 64) :: b64Char (c % 64) :: encodeB64Chunks rest

/-- Standard base64 encoding of a byte list, as a string. -/
def base64Encode (bs : List Nat) : String :=
  ⟨encodeB64Chunks bs⟩

/-! ## `export_image` (`POST /export`) -/

/-- Failures of the export handler: `image_b64.split(",", 1)` finding no
comma after a `data:` prefix (a `ValueError` on unpacking), or
`base64.b64decode` rejecting the payload. -/
inductive ExportError : Type where
  | unpackError : ExportError
  | b64Error : ExportError

/-- The characters after the first comma, or `none` when there is no
comma (in which case `header, b64 = image_b64.split(",", 1)` raises). -/
def dropThroughComma : List Char → Option (List Char)
  | [] => none
  | c :: cs => if c = ',' then some cs else dropThroughComma cs

/-- `export_image` (`POST /export`): strip a `data:`-URI prefix up to and
including the first comma, base64-decode the rest, and write the decoded
bytes verbatim to `DESIGNS_DIR/<fname>` where `fname` is the supplied
filename or `export_<uuid4().hex[:8]>.png`.  Returns the updated designs
directory and the filename reported in the response. -/
def export_image (st : Store) (image_b64 : String) (filename : Option String)
    (uuidHex : String) : Except ExportError (Store × String) :=
  let stripped : Except ExportError String :=
    if pyStartsWith image_b64 "data:" then
      match dropThroughComma image_b64.data with
      | none => Except.error ExportError.unpackError
      | some rest => Except.ok ⟨rest⟩
    else Except.ok image_b64
  match stripped with
  | Except.error e => Except.error e
  | Except.ok b64 =>
    match base64Decode b64 with
    | none => Except.error ExportError.b64Error
    | some data =>
      let fname := pyOrStr filename ("export_" ++ strTake uuidHex 8 ++ ".png")
      Except.ok (setFile st fname (FileData.raw data), fname)

/-! ## Preview generation and the listing endpoint -/

/-- `os.path.basename`: the part of a path after the last `/`. -/
def basename (s : String) : String :=
  ⟨(s.data.reverse.takeWhile fun c => c != '/').reverse⟩

/-- Python `filename.split('.')[0]`: the part before the first dot
(the whole string when there is no dot). -/
def splitDotHead (s : String) : String :=
  ⟨s.data.takeWhile fun c => c != '.'⟩

/-- `os.path.splitext(filename)[0]`: the part before the last dot
(the whole string when there is no dot). -/
def dropExt (s : String) : String :=
  if '.' ∈ s.data then
    ⟨((s.data.reverse.dropWhile fun c => c != '.').tail).reverse⟩
  else s

/-- Python `str.title()` composed with `replace("_", " ")`, used for the
display name in the template list. -/
def pyTitle (s : String) : String :=
  ⟨(s.data.foldl
      (fun (acc : List Char × Bool) c =>
        if c.isAlpha then
          (acc.1 ++ [if acc.2 then c.toUpper else c.toLower], false)
        else (acc.1 ++ [c], true))
      ([], true)).1⟩

/-- Preview filename derivation as written in `create_template_previews`:
`f"preview_{filename.split('.')[0]}.jpg"`. -/
def previewFilenameGenerator (filename : String) : String :=
  "preview_" ++ splitDotHead filename ++ ".jpg"

/-- Preview filename derivation as written in `index`:
`f"preview_{filename.split('.')[0]}.jpg"`. -/
def previewFilenameIndex (filename : String) : String :=
  "preview_" ++ splitDotHead filename ++ ".jpg"

/-- Follows the spec's words, for comparison with the code's derivation:
"a preview path derived from the filename by stripping the extension and
prefixing `preview_`", i.e. `preview_<basename-without-extension>.jpg`. -/
def specPreviewFilename (filename : String) : String :=
  "preview_" ++ dropExt filename ++ ".jpg"

/-- A generated preview file: a JPEG of the given dimensions saved at
quality 85. -/
structure PreviewImage where
  width : Nat
  height : Nat
  quality : Nat

/-- The previews directory (`PREVIEWS_DIR`). -/
abbrev PreviewStore : Type := FileMap PreviewImage

/-- Preview dimensions for a source image of size `width × height`:
`preview_width = 300`, `preview_height = int(height * (300 / width))`,
modelled in exact arithmetic where `int` truncation of the nonnegative
quotient is Nat (floor) division. -/
def previewSize (width height : Nat) : Nat × Nat :=
  (300, height * 300 / width)

/-- Follows the spec's words, for comparison with the code's truncation:
"height equal to `round(H * 300 / W)`", with Python's round-half-to-even
tie-breaking. -/
def specRoundHeight (width height : Nat) : Nat :=
  let n := height * 300
  let q := n / width
  let r := n % width
  if 2 * r < width then q
  else if width < 2 * r then q + 1
  else if q % 2 = 0 then q else q + 1

/-- The body of the `try` in `create_template_previews`, for one image
path.  `openImage` is the oracle for `Image.open`: `some (w, h)` gives the
source dimensions, `none` means opening (or the subsequent resize/save)
raises, in which case the exception is caught, logged, and the previews
directory is left unchanged.  A source width of zero raises
`ZeroDivisionError`, which the same `except` catches. -/
def processImage (openImage : String → Option (Nat × Nat))
    (st : PreviewStore) (imgPath : String) : PreviewStore :=
  match openImage imgPath with
  | none => st
  | some (w, h) =>
    if w = 0 then st
    else
      let sz := previewSize w h
      setFile st (previewFilenameGenerator (basename imgPath))
        { width := sz.1, height := sz.2, quality := 85 }

/-- The template images found by `create_template_previews`:
`glob("*.jpg") + glob("*.jpeg") + glob("*.png")`, truncated to the first
eight. -/
def preview_image_files (jpg jpeg png : List String) : List String :=
  (jpg ++ jpeg ++ png).take 8

/-- `create_template_previews`: process each of the (at most eight) found
template images in order, skipping failures. -/
def create_template_previews (openImage : String → Option (Nat × Nat))
    (jpg jpeg png : List String) (st : PreviewStore) : PreviewStore :=
  (preview_image_files jpg jpeg png).foldl (processImage openImage) st

/-- The template images found by `index`: the same
`glob("*.jpg") + glob("*.jpeg") + glob("*.png")`, truncated to the first
eight. -/
def index_image_files (jpg jpeg png : List String) : List String :=
  (jpg ++ jpeg ++ png).take 8

/-- One entry of the template list rendered by `index`. -/
structure TemplateEntry where
  id : String
  name : String
  width : Nat
  height : Nat
  preview_url : String
  image_url : String

/-- The template-list entry `index` builds for one image path; a failure
reading the dimensions falls back to the 880 × 1020 defaults. -/
def templateEntry (openImage : String → Option (Nat × Nat))
    (imgPath : String) : TemplateEntry :=
  let filename := basename imgPath
  let wh :=
    match openImage imgPath with
    | some wh => wh
    | none => (880, 1020)
  { id := filename
    name := pyTitle ⟨(dropExt filename).data.map fun c =>
      if c = '_' then ' ' else c⟩
    width := wh.1
    height := wh.2
    preview_url := "/previews/" ++ previewFilenameIndex filename
    image_url := "/templates_images/" ++ filename }

/-- The template list rendered by `GET /`. -/
def index_template_list (openImage : String → Option (Nat × Nat))
    (jpg jpeg png : List String) : List TemplateEntry :=
  (index_image_files jpg jpeg png).map (templateEntry openImage)

/-! ## Base64 round-trip lemmas -/

theorem b64Val_b64Char_eq (n : Nat) (h : n < 64) : b64Val (b64Char n) = some n := by
  have hall : ∀ m, m < 64 → b64Val (b64Alphabet.getD m 'A') = some m := by decide
  have hn : n % 64 = n := Nat.mod_eq_of_lt h
  have := hall n h
  simpa [ b64Char, hn] using this

theorem b64Val_b64Char_mod (n : Nat) : b64Val (b64Char n) = some (n % 64) := by
  have h : n % 64 < 64 := Nat.mod_lt n (by omega)
  have heq : n % 64 % 64 = n % 64 := by omega
  have := b64Val_b64Char_eq (n % 64) h
  simpa [ b64Char, heq] using this

theorem isB64Char_b64Char (n : Nat) : isB64Char (b64Char n) = true := by
  simp [ isB64Char, b64Val_b64Char_mod]

theorem b64Char_ne_pad (n : Nat) : b64Char n ≠ '=' := by
  have hall : ∀ m, m < 64 → b64Alphabet.getD m 'A' ≠ '=' := by decide
  have h : n % 64 < 64 := Nat.mod_lt n (by omega)
  simpa [ b64Char] using hall (n % 64) h

theorem mem_encodeB64Chunks :
    ∀ (bs : List Nat), ∀ c ∈ encodeB64Chunks bs, (isB64Char c || c == '=') = true
  | [] => by simp [ encodeB64Chunks]
  | [a] => by
    simp only [ encodeB64Chunks, List.mem_cons, List.not_mem_nil, or_false]
    rintro c (rfl | rfl | rfl | rfl) <;> simp [ isB64Char_b64Char]
  | [a, b] => by
    simp only [ encodeB64Chunks, List.mem_cons, List.not_mem_nil, or_false]
    rintro c (rfl | rfl | rfl | rfl) <;> simp [ isB64Char_b64Char]
  | a :: b :: c :: rest => by
    simp only [ encodeB64Chunks, List.mem_cons]
    rintro x (rfl | rfl | rfl | rfl | hx)
    · simp [ isB64Char_b64Char]
    · simp [ isB64Char_b64Char]
    · simp [ isB64Char_b64Char]
    · simp [ isB64Char_b64Char]
    · exact mem_encodeB64Chunks rest x hx

theorem filter_encodeB64Chunks (bs : List Nat) :
    (encodeB64Chunks bs).filter (fun c => isB64Char c || c == '=') =
      encodeB64Chunks bs :=
  List.filter_eq_self.mpr (mem_encodeB64Chunks bs)

theorem decodeB64Chunks_encodeB64Chunks :
    ∀ (bs : List Nat), (∀ b ∈ bs, b < 256) →
      decodeB64Chunks (encodeB64Chunks bs) = some bs
  | [], _ => rfl
  | [a], h => by
    have ha : a < 256 := h a (by simp)
    have h1 : a / 4 < 64 := by omega
    have h2 : a % 4 * 16 < 64 := by omega
    simp only [ encodeB64Chunks, decodeB64Chunks, b64Val_b64Char_eq _ h1,
      b64Val_b64Char_eq _ h2]
    simp
    omega
  | [a, b], h => by
    have ha : a < 256 := h a (by simp)
    have hb : b < 256 := h b (by simp)
    have h1 : a / 4 < 64 := by omega
    have h2 : a % 4 * 16 + b / 16 < 64 := by omega
    have h3 : b % 16 * 4 < 64 := by omega
    simp only [ encodeB64Chunks, decodeB64Chunks, b64Val_b64Char_eq _ h1,
      b64Val_b64Char_eq _ h2, b64Val_b64Char_eq _ h3]
    simp [ b64Char_ne_pad]
    omega
  | a :: b :: c :: rest, h => by
    have ha : a < 256 := h a (by simp)
    have hb : b < 256 := h b (by simp)
    have hc : c < 256 := h c (by simp)
    have hrest : ∀ x ∈ rest, x < 256 := fun x hx => h x (by simp [hx])
    have h1 : a / 4 < 64 := by omega
    have h2 : a % 4 * 16 + b / 16 < 64 := by omega
    have h3 : b % 16 * 4 + c / 64 < 64 := by omega
    have h4 : c % 64 < 64 := by omega
    have hv1 : a / 4 * 4 + (a % 4 * 16 + b / 16) / 16 = a := by omega
    have hv2 : (a % 4 * 16 + b / 16) % 16 * 16 + (b % 16 * 4 + c / 64) / 4 = b := by
      omega
    have hv3 : (b % 16 * 4 + c / 64) % 4 * 64 + c % 64 = c := by omega
    have ih := decodeB64Chunks_encodeB64Chunks rest hrest
    simp [ encodeB64Chunks, decodeB64Chunks, b64Val_b64Char_eq _ h1,
      b64Val_b64Char_eq _ h2, b64Val_b64Char_eq _ h3, b64Val_b64Char_eq _ h4,
      b64Char_ne_pad, ih, hv1, hv2, hv3]

theorem base64Decode_base64Encode (bs : List Nat) (h : ∀ b ∈ bs, b < 256) :
    base64Decode (base64Encode bs) = some bs := by
  show decodeB64Chunks
      ((encodeB64Chunks bs).filter fun c => isB64Char c || c == '=') = some bs
  rw [ filter_encodeB64Chunks]
  exact decodeB64Chunks_encodeB64Chunks bs h

theorem base64Encode_not_dataURI (bs : List Nat) :
    pyStartsWith (base64Encode bs) "data:" = false := by
  by_contra hcontra
  have hp : ("data:".data).isPrefixOf (base64Encode bs).data = true := by
    revert hcontra
    unfold pyStartsWith
    cases ("data:".data).isPrefixOf (base64Encode bs).data <;> simp
  rw [ List.isPrefixOf_iff_prefix] at hp
  obtain ⟨t, ht⟩ := hp
  have hmem : ':' ∈ encodeB64Chunks bs := by
    have : ':' ∈ "data:".data ++ t := by simp [ String.data]
    rw [ht] at this
    exact this
  have h2 := mem_encodeB64Chunks bs ':' hmem
  have h3 : (isB64Char ':' || ':' == '=') = false := by decide
  rw [h3] at h2
  exact absurd h2 (by decide)

/-! ## Export handler lemmas -/

theorem dropThroughComma_append (l₁ l₂ : List Char) (h : ',' ∉ l₁) :
    dropThroughComma (l₁ ++ ',' :: l₂) = some l₂ := by
  induction l₁ with
  | nil => simp [ dropThroughComma]
  | cons c cs ih =>
    have hc : ¬(c = ',') := fun hcc => h (by simp [hcc])
    have hcs : ',' ∉ cs := fun hm => h (by simp [hm])
    simp [ dropThroughComma, hc, ih hcs]

theorem pyStartsWith_append (a b p : String) (h : pyStartsWith a p = true) :
    pyStartsWith (a ++ b) p = true := by
  unfold pyStartsWith at h ⊢
  rw [ List.isPrefixOf_iff_prefix] at h ⊢
  rw [ String.data_append]
  exact h.trans (List.prefix_append a.data b.data)

/-- What `export_image` does on a payload with no `data:` prefix that
base64-decodes successfully. -/
theorem export_image_raw (st : Store) (payload : String) (bs : List Nat)
    (filename : Option String) (uuidHex : String)
    (hpre : pyStartsWith payload "data:" = false)
    (hdec : base64Decode payload = some bs) :
    export_image st payload filename uuidHex =
      Except.ok
        (setFile st (pyOrStr filename ("export_" ++ strTake uuidHex 8 ++ ".png"))
          (FileData.raw bs),
         pyOrStr filename ("export_" ++ strTake uuidHex 8 ++ ".png")) := by
  unfold export_image
  simp [ hpre, hdec]

/-- What `export_image` does on a data-URI payload whose header holds no
comma and whose body base64-decodes successfully. -/
theorem export_image_dataURI (st : Store) (header body : String) (bs : List Nat)
    (filename : Option String) (uuidHex : String)
    (hhead : pyStartsWith header "data:" = true)
    (hcomma : ',' ∉ header.data)
    (hdec : base64Decode body = some bs) :
    export_image st (header ++ "," ++ body) filename uuidHex =
      Except.ok
        (setFile st (pyOrStr filename ("export_" ++ strTake uuidHex 8 ++ ".png"))
          (FileData.raw bs),
         pyOrStr filename ("export_" ++ strTake uuidHex 8 ++ ".png")) := by
  have hpre : pyStartsWith (header ++ "," ++ body) "data:" = true := by
    rw [ String.append_assoc]
    exact pyStartsWith_append header ("," ++ body) "data:" hhead
  have hdata : (header ++ "," ++ body).data = header.data ++ ',' :: body.data := by
    rw [ String.data_append, String.data_append,
      show (",".data) = [','] from rfl, List.append_assoc]
    rfl
  have hdrop : dropThroughComma (header ++ "," ++ body).data = some body.data := by
    rw [hdata]
    exact dropThroughComma_append header.data body.data hcomma
  unfold export_image
  rw [hpre]
  simp only [if_true, hdrop]
  have hbody : (⟨body.data⟩ : String) = body := rfl
  simp [ hbody, hdec]

/-! ## Supporting lemmas for the claim theorems -/

theorem append_json_ne_empty (id : String) : id ++ ".json" ≠ "" := by
  intro h
  have hd := congrArg String.data h
  rw [ String.data_append] at hd
  have : (id.data ++ ".json".data).length = 0 := by rw [hd]; rfl
  simp [ String.data] at this

theorem pyOrStr_some_ne (s d : String) (h : s ≠ "") : pyOrStr (some s) d = s := by
  simp [ pyOrStr, h]

theorem save_design_some (id : String) (hid : id ≠ "") (st : Store)
    (tid : String) (d : Json) (hex : String) :
    save_design st ⟨some id, tid, d⟩ hex =
      (setFile st (id ++ ".json") (FileData.design ⟨id, tid, d⟩), id) := by
  simp [ save_design, pyOrStr_some_ne _ _ hid]

theorem get_design_eq (st : Store) (design_id : String) :
    get_design st design_id =
      match getFile st (design_id ++ ".json") with
      | none => (GetResult.notFound, st)
      | some (FileData.design doc) => (GetResult.ok doc, st)
      | some (FileData.raw _) => (GetResult.loadError, st) := rfl

/-! ## C1 -/

/-- C1: saving with no design identifier generates one, writes the design
document under `<design_id>.json`, and returns that identifier; a
subsequent get with the returned identifier yields a document whose
`design` field deep-equals the `design_json` given to save and whose
`template_id` equals the `template_id` given to save. -/
theorem save_then_get_roundtrip (st : Store) (template_id : String)
    (design_json : Json) (uuidHex : String) :
    (save_design st ⟨none, template_id, design_json⟩ uuidHex).2 =
      genDesignId uuidHex ∧
    getFile (save_design st ⟨none, template_id, design_json⟩ uuidHex).1
        (genDesignId uuidHex ++ ".json") =
      some (FileData.design ⟨genDesignId uuidHex, template_id, design_json⟩) ∧
    (get_design (save_design st ⟨none, template_id, design_json⟩ uuidHex).1
        (genDesignId uuidHex)).1 =
      GetResult.ok ⟨genDesignId uuidHex, template_id, design_json⟩ := by
  have hg : getFile (save_design st ⟨none, template_id, design_json⟩ uuidHex).1
      (genDesignId uuidHex ++ ".json") =
        some (FileData.design
          ⟨genDesignId uuidHex, template_id, design_json⟩) :=
    getFile_setFile_self st _ _
  exact ⟨rfl, hg, by simp [ get_design_eq, hg]⟩

/-! ## C3 -/

/-- C3: `get_design` answers 404 exactly when no file
`<design_id>.json` exists; when the file exists and holds a design
document, the parsed document is returned; and the handler changes no
state. -/
theorem get_design_spec (st : Store) (design_id : String) :
    ((get_design st design_id).1 = GetResult.notFound ↔
      getFile st (design_id ++ ".json") = none) ∧
    (∀ doc, getFile st (design_id ++ ".json") = some (FileData.design doc) →
      (get_design st design_id).1 = GetResult.ok doc) ∧
    (get_design st design_id).2 = st := by
  rcases h : getFile st (design_id ++ ".json") with _ | f
  · simp [ get_design_eq, h]
  · rcases f with doc | bytes <;> simp [ get_design_eq, h]

/-- Witness for C3 at concrete stores. -/
theorem get_design_spec_witness :
    (get_design [("d1.json",
        FileData.design ⟨"d1", "t1", Json.null⟩)] "d1").1 =
      GetResult.ok ⟨"d1", "t1", Json.null⟩ ∧
    (get_design [] "zzz").1 = GetResult.notFound :=
  ⟨(get_design_spec [("d1.json", FileData.design ⟨"d1", "t1", Json.null⟩)]
      "d1").2.1 ⟨"d1", "t1", Json.null⟩ rfl,
   ((get_design_spec [] "zzz").1).mpr rfl⟩

/-! ## C4 -/

/-- C4: saving twice under the same explicit identifier overwrites the
first write: a fetch after the second save returns only the second
payload's `template_id` and `design`, and the resulting directory is
indistinguishable from one where only the second save happened. -/
theorem save_overwrite (st : Store) (id tid1 tid2 : String) (d1 d2 : Json)
    (hex1 hex2 : String) (hid : id ≠ "") :
    (save_design st ⟨some id, tid1, d1⟩ hex1).2 = id ∧
    (get_design
        (save_design (save_design st ⟨some id, tid1, d1⟩ hex1).1
          ⟨some id, tid2, d2⟩ hex2).1 id).1 =
      GetResult.ok ⟨id, tid2, d2⟩ ∧
    (∀ k, getFile (save_design (save_design st ⟨some id, tid1, d1⟩ hex1).1
          ⟨some id, tid2, d2⟩ hex2).1 k =
        getFile (save_design st ⟨some id, tid2, d2⟩ hex2).1 k) := by
  have e1 := save_design_some id hid st tid1 d1 hex1
  have e2 := save_design_some id hid
    (setFile st (id ++ ".json") (FileData.design ⟨id, tid1, d1⟩)) tid2 d2 hex2
  have e3 := save_design_some id hid st tid2 d2 hex2
  simp only [e1, e2, e3]
  refine ⟨by simp, ?_, ?_⟩
  · simp [ get_design_eq, getFile_setFile_self]
  · intro k
    by_cases hk : k = id ++ ".json"
    · subst hk
      rw [ getFile_setFile_self, getFile_setFile_self]
    · rw [ getFile_setFile_ne _ _ _ _ hk, getFile_setFile_ne _ _ _ _ hk,
        getFile_setFile_ne _ _ _ _ hk]

/-- Witness for C4 at a concrete pair of payloads. -/
theorem save_overwrite_witness :
    (get_design
        (save_design (save_design [] ⟨some "d", "t1", Json.num 1⟩ "h1").1
          ⟨some "d", "t2", Json.num 2⟩ "h2").1 "d").1 =
      GetResult.ok ⟨"d", "t2", Json.num 2⟩ :=
  (save_overwrite [] "d" "t1" "t2" (Json.num 1) (Json.num 2) "h1" "h2"
    (by decide)).2.1

/-! ## C5 -/

/-- C5: for any byte sequence, exporting its base64 encoding — with or
without a `data:` URI prefix, which is stripped up to and including the
first comma — decodes it, writes exactly the original bytes to the file,
and returns the filename used: the supplied one, or
`export_<uuid-hex-prefix>.png` when none was supplied. -/
theorem export_roundtrip (st : Store) (bs : List Nat) (header : String)
    (filename : Option String) (uuidHex : String)
    (hbytes : ∀ b ∈ bs, b < 256)
    (hhead : pyStartsWith header "data:" = true)
    (hcomma : ',' ∉ header.data) :
    export_image st (header ++ "," ++ base64Encode bs) filename uuidHex =
      Except.ok
        (setFile st (pyOrStr filename ("export_" ++ strTake uuidHex 8 ++ ".png"))
          (FileData.raw bs),
         pyOrStr filename ("export_" ++ strTake uuidHex 8 ++ ".png")) ∧
    export_image st (base64Encode bs) filename uuidHex =
      Except.ok
        (setFile st (pyOrStr filename ("export_" ++ strTake uuidHex 8 ++ ".png"))
          (FileData.raw bs),
         pyOrStr filename ("export_" ++ strTake uuidHex 8 ++ ".png")) ∧
    getFile
        (setFile st (pyOrStr filename ("export_" ++ strTake uuidHex 8 ++ ".png"))
          (FileData.raw bs))
        (pyOrStr filename ("export_" ++ strTake uuidHex 8 ++ ".png")) =
      some (FileData.raw bs) ∧
    (filename = none →
      pyOrStr filename ("export_" ++ strTake uuidHex 8 ++ ".png") =
        "export_" ++ strTake uuidHex 8 ++ ".png") ∧
    (∀ f, filename = some f → f ≠ "" →
      pyOrStr filename ("export_" ++ strTake uuidHex 8 ++ ".png") = f) := by
  refine ⟨export_image_dataURI st header (base64Encode bs) bs filename uuidHex
      hhead hcomma (base64Decode_base64Encode bs hbytes),
    export_image_raw st (base64Encode bs) bs filename uuidHex
      (base64Encode_not_dataURI bs) (base64Decode_base64Encode bs hbytes),
    getFile_setFile_self st _ _, ?_, ?_⟩
  · intro h; subst h; rfl
  · intro f hf hne; subst hf; exact pyOrStr_some_ne f _ hne

/-- Witness for C5: exporting the PNG magic bytes through a data URI. -/
theorem export_roundtrip_witness :
    export_image []
        ("data:image/png;base64" ++ "," ++ base64Encode [137, 80, 78, 71])
        none "abcdef1234" =
      Except.ok
        (setFile [] (pyOrStr none ("export_" ++ strTake "abcdef1234" 8 ++ ".png"))
          (FileData.raw [137, 80, 78, 71]),
         pyOrStr none ("export_" ++ strTake "abcdef1234" 8 ++ ".png")) ∧
    getFile
        (setFile [] (pyOrStr none ("export_" ++ strTake "abcdef1234" 8 ++ ".png"))
          (FileData.raw [137, 80, 78, 71]))
        (pyOrStr none ("export_" ++ strTake "abcdef1234" 8 ++ ".png")) =
      some (FileData.raw [137, 80, 78, 71]) := by
  have h := export_roundtrip [] [137, 80, 78, 71] "data:image/png;base64"
    none "abcdef1234" (by decide) (by decide) (by decide)
  exact ⟨h.1, h.2.2.1⟩

/-! ## C2 -/

/-- C2 counterexample: for a 7 × 1 source image the code computes
`int(1 * (300 / 7)) = 42`, while the claimed `round(1 * 300 / 7)` is 43. -/
theorem preview_height_round_cex :
    (previewSize 7 1).2 = 42 ∧ specRoundHeight 7 1 = 43 ∧
    (previewSize 7 1).2 ≠ specRoundHeight 7 1 := by decide

/-- C2 (amended): for every source image of width `W > 0` and height `H`,
the generated preview is 300 wide and its height is the floor (not the
rounding) of `H * 300 / W`: it is the unique `h` with
`W * h ≤ H * 300 < W * (h + 1)`. -/
theorem preview_size_spec (W H : Nat) (hW : 0 < W) :
    (previewSize W H).1 = 300 ∧
    W * (previewSize W H).2 ≤ H * 300 ∧
    H * 300 < W * ((previewSize W H).2 + 1) := by
  have hdm : W * (H * 300 / W) + H * 300 % W = H * 300 := Nat.div_add_mod (H * 300) W
  have hlt : H * 300 % W < W := Nat.mod_lt _ hW
  refine ⟨rfl, Nat.le.intro hdm, ?_⟩
  calc H * 300 = W * (H * 300 / W) + H * 300 % W := hdm.symm
    _ < W * (H * 300 / W) + W := Nat.add_lt_add_left hlt _
    _ = W * (H * 300 / W + 1) := (Nat.mul_succ W _).symm

/-- Witness for C2 (amended) at a 7 × 1 source image. -/
theorem preview_size_spec_witness :
    (previewSize 7 1).1 = 300 ∧
    7 * (previewSize 7 1).2 ≤ 1 * 300 ∧
    1 * 300 < 7 * ((previewSize 7 1).2 + 1) :=
  preview_size_spec 7 1 (by decide)

/-! ## C6 -/

/-- C6: both the listing and preview generation surface
`min(number of image files, 8)` templates; when at most 8 files are
present all of them are surfaced, and when more are present exactly the
first 8 in enumeration order are. -/
theorem template_listing_count (openImage : String → Option (Nat × Nat))
    (jpg jpeg png : List String) :
    preview_image_files jpg jpeg png = index_image_files jpg jpeg png ∧
    (index_template_list openImage jpg jpeg png).length =
      min (jpg ++ jpeg ++ png).length 8 ∧
    ((jpg ++ jpeg ++ png).length ≤ 8 →
      index_image_files jpg jpeg png = jpg ++ jpeg ++ png) ∧
    (8 < (jpg ++ jpeg ++ png).length →
      (index_image_files jpg jpeg png).length = 8 ∧
      index_image_files jpg jpeg png <+: jpg ++ jpeg ++ png) := by
  refine ⟨rfl, ?_, ?_, ?_⟩
  · unfold index_template_list index_image_files
    rw [ List.length_map, List.length_take, Nat.min_comm]
  · intro hle
    exact List.take_of_length_le hle
  · intro hgt
    refine ⟨?_, List.take_prefix 8 _⟩
    unfold index_image_files
    rw [ List.length_take]
    omega

/-- Witness for C6: three files are all surfaced; of nine files exactly
the first eight are. -/
theorem template_listing_count_witness :
    index_image_files ["a.jpg", "b.jpg"] [] ["c.png"] =
      ["a.jpg", "b.jpg"] ++ [] ++ ["c.png"] ∧
    (index_image_files ["1", "2", "3", "4", "5", "6", "7", "8", "9"] [] []).length
      = 8 ∧
    index_image_files ["1", "2", "3", "4", "5", "6", "7", "8", "9"] [] [] <+:
      ["1", "2", "3", "4", "5", "6", "7", "8", "9"] ++ [] ++ [] :=
  ⟨(template_listing_count (fun _ => none) ["a.jpg", "b.jpg"] [] ["c.png"]).2.2.1
      (by decide),
   ((template_listing_count (fun _ => none)
      ["1", "2", "3", "4", "5", "6", "7", "8", "9"] [] []).2.2.2 (by decide)).1,
   ((template_listing_count (fun _ => none)
      ["1", "2", "3", "4", "5", "6", "7", "8", "9"] [] []).2.2.2 (by decide)).2⟩

/-! ## C7 -/

theorem takeWhile_ne_dot_of_not_mem (s : List Char) (hs : '.' ∉ s) :
    s.takeWhile (fun c => c != '.') = s := by
  induction s with
  | nil => rfl
  | cons c cs ih =>
    have hc : ¬(c = '.') := fun h => hs (by simp [h])
    have hcs : '.' ∉ cs := fun h => hs (by simp [h])
    simp [ List.takeWhile_cons, hc, ih hcs]

theorem takeWhile_ne_dot_append (s t : List Char) (hs : '.' ∉ s) :
    (s ++ '.' :: t).takeWhile (fun c => c != '.') = s := by
  induction s with
  | nil => simp [ List.takeWhile_cons]
  | cons c cs ih =>
    have hc : ¬(c = '.') := fun h => hs (by simp [h])
    have hcs : '.' ∉ cs := fun h => hs (by simp [h])
    simp [ List.takeWhile_cons, hc, ih hcs]

theorem dropWhile_ne_dot_append (s t : List Char) (hs : '.' ∉ s) :
    (s ++ '.' :: t).dropWhile (fun c => c != '.') = '.' :: t := by
  induction s with
  | nil => simp [ List.dropWhile_cons]
  | cons c cs ih =>
    have hc : ¬(c = '.') := fun h => hs (by simp [h])
    have hcs : '.' ∉ cs := fun h => hs (by simp [h])
    simp [ List.dropWhile_cons, hc, ih hcs]

/-- C7 counterexample: for the filename `a.b.png` the code derives
`preview_a.jpg` (everything from the first dot on is dropped), while the
claimed stripping of the extension alone would give `preview_a.b.jpg`. -/
theorem preview_filename_cex :
    previewFilenameGenerator "a.b.png" = "preview_a.jpg" ∧
    specPreviewFilename "a.b.png" = "preview_a.b.jpg" ∧
    previewFilenameGenerator "a.b.png" ≠ specPreviewFilename "a.b.png" := by
  decide

/-- C7 (amended): the preview filename is deterministically derived by
taking the part of the template filename before the first dot and
wrapping it as `preview_<part>.jpg`; this agrees with stripping the
extension whenever the filename holds at most one dot, and the generator
and the listing page use the same derivation, so the two always agree. -/
theorem preview_filename_derivation (filename : String) :
    previewFilenameGenerator filename = previewFilenameIndex filename ∧
    previewFilenameGenerator filename =
      "preview_" ++ splitDotHead filename ++ ".jpg" ∧
    (filename.data.count '.' ≤ 1 →
      previewFilenameGenerator filename = specPreviewFilename filename) := by
  refine ⟨rfl, rfl, ?_⟩
  intro hcount
  unfold previewFilenameGenerator specPreviewFilename
  have hmain : splitDotHead filename = dropExt filename := by
    unfold splitDotHead dropExt
    rcases Nat.le_one_iff_eq_zero_or_eq_one.mp hcount with h0 | h1
    · have hnm : '.' ∉ filename.data := List.count_eq_zero.mp h0
      rw [ takeWhile_ne_dot_of_not_mem _ hnm, if_neg hnm]
    · have hmem : '.' ∈ filename.data := by
        have : 0 < filename.data.count '.' := by omega
        exact List.count_pos_iff.mp this
      obtain ⟨s, t, hst⟩ := List.append_of_mem hmem
      have hcnt : s.count '.' + (t.count '.' + 1) = 1 := by
        rw [hst] at h1
        simpa [ List.count_append, List.count_cons] using h1
      have hs : '.' ∉ s := List.count_eq_zero.mp (by omega)
      have ht : '.' ∉ t := List.count_eq_zero.mp (by omega)
      have htr : '.' ∉ t.reverse := fun hm => ht (List.mem_reverse.mp hm)
      rw [hst, if_pos (by simp), takeWhile_ne_dot_append s t hs]
      have hrev : (s ++ '.' :: t).reverse = t.reverse ++ '.' :: s.reverse := by
        rw [ List.reverse_append, List.reverse_cons, List.append_assoc]
        rfl
      rw [hrev, dropWhile_ne_dot_append t.reverse s.reverse htr]
      simp
  rw [hmain]

/-- Witness for C7 (amended) at a single-dot filename. -/
theorem preview_filename_derivation_witness :
    previewFilenameGenerator "photo.png" = previewFilenameIndex "photo.png" ∧
    previewFilenameGenerator "photo.png" = specPreviewFilename "photo.png" :=
  ⟨(preview_filename_derivation "photo.png").1,
   (preview_filename_derivation "photo.png").2.2 (by decide)⟩

/-! ## C8 -/

/-- C8: during preview generation a failure on one image is caught and
skipped: the run over a batch containing a failing image equals the run
without it, and in particular every image after the failing one is still
processed (the fold continues over the remaining images).  The bound
keeps the whole batch within the 8-image limit so that dropping the
failing image changes no truncation. -/
theorem preview_generation_skips_failure
    (openImage : String → Option (Nat × Nat)) (st : PreviewStore)
    (pre post : List String) (bad : String)
    (hbad : openImage bad = none)
    (hlen : pre.length + 1 + post.length ≤ 8) :
    create_template_previews openImage (pre ++ bad :: post) [] [] st =
      post.foldl (processImage openImage)
        (pre.foldl (processImage openImage) st) ∧
    create_template_previews openImage (pre ++ bad :: post) [] [] st =
      create_template_previews openImage (pre ++ post) [] [] st := by
  have hbadskip : ∀ s, processImage openImage s bad = s := by
    intro s
    unfold processImage
    rw [hbad]
  have hall : create_template_previews openImage (pre ++ bad :: post) [] [] st =
      post.foldl (processImage openImage)
        (pre.foldl (processImage openImage) st) := by
    unfold create_template_previews preview_image_files
    have hlen' : (pre ++ bad :: post ++ [] ++ []).length ≤ 8 := by
      simp
      omega
    rw [ List.take_of_length_le hlen']
    simp only [ List.append_nil, List.foldl_append, List.foldl_cons, hbadskip]
  refine ⟨hall, ?_⟩
  rw [hall]
  unfold create_template_previews preview_image_files
  have hlen2 : (pre ++ post ++ [] ++ []).length ≤ 8 := by
    simp
    omega
  rw [ List.take_of_length_le hlen2]
  simp only [ List.append_nil, List.foldl_append]

/-- Witness for C8: a failing image between two good ones is skipped and
the later image is still processed. -/
theorem preview_generation_skips_failure_witness :
    create_template_previews
        (fun s => if s = "bad.png" then none else some (600, 400))
        (["a.jpg"] ++ "bad.png" :: ["b.png"]) [] [] [] =
      ["b.png"].foldl
        (processImage (fun s => if s = "bad.png" then none else some (600, 400)))
        (["a.jpg"].foldl
          (processImage
            (fun s => if s = "bad.png" then none else some (600, 400))) []) :=
  (preview_generation_skips_failure
    (fun s => if s = "bad.png" then none else some (600, 400)) []
    ["a.jpg"] ["b.png"] "bad.png" (by decide) (by decide)).1

/-! ## C9 -/

/-- Lowercase hexadecimal digits, the alphabet of `uuid4().hex`. -/
def isLowerHexDigit (c : Char) : Bool :=
  c ∈ "0123456789abcdef".data

/-- C9: supplying the empty string as the design identifier behaves
exactly like supplying none — Python's `or` treats both as falsy — so a
fresh identifier `design_<12 lowercase hex digits>` is generated,
returned, and stored, and the empty string is never used as an
identifier. -/
theorem empty_design_id_generates (st : Store) (template_id : String)
    (design_json : Json) (uuidHex : String)
    (hlen : 12 ≤ uuidHex.data.length)
    (hhex : ∀ c ∈ uuidHex.data, isLowerHexDigit c = true) :
    save_design st ⟨some "", template_id, design_json⟩ uuidHex =
      save_design st ⟨none, template_id, design_json⟩ uuidHex ∧
    (save_design st ⟨some "", template_id, design_json⟩ uuidHex).2 =
      "design_" ++ strTake uuidHex 12 ∧
    (strTake uuidHex 12).data.length = 12 ∧
    (∀ c ∈ (strTake uuidHex 12).data, isLowerHexDigit c = true) ∧
    getFile (save_design st ⟨some "", template_id, design_json⟩ uuidHex).1
        (("design_" ++ strTake uuidHex 12) ++ ".json") =
      some (FileData.design
        ⟨"design_" ++ strTake uuidHex 12, template_id, design_json⟩) ∧
    (save_design st ⟨some "", template_id, design_json⟩ uuidHex).2 ≠ "" := by
  refine ⟨rfl, rfl, ?_, ?_, ?_, ?_⟩
  · show (uuidHex.data.take 12).length = 12
    rw [ List.length_take]
    omega
  · intro c hc
    exact hhex c (List.take_subset 12 uuidHex.data hc)
  · exact getFile_setFile_self st _ _
  · intro h
    rw [ show (save_design st ⟨some "", template_id, design_json⟩ uuidHex).2 =
      "design_" ++ strTake uuidHex 12 from rfl] at h
    have hd := congrArg String.data h
    rw [ String.data_append] at hd
    have : ("design_".data ++ (strTake uuidHex 12).data).length = 0 := by
      rw [hd]
      rfl
    simp [ String.data] at this

/-- Witness for C9 at a concrete uuid hex string. -/
theorem empty_design_id_generates_witness :
    save_design [] ⟨some "", "t", Json.null⟩ "0123456789abcdef0123456789abcdef" =
      save_design [] ⟨none, "t", Json.null⟩ "0123456789abcdef0123456789abcdef" ∧
    (save_design [] ⟨some "", "t", Json.null⟩
        "0123456789abcdef0123456789abcdef").2 =
      "design_" ++ strTake "0123456789abcdef0123456789abcdef" 12 ∧
    (save_design [] ⟨some "", "t", Json.null⟩
        "0123456789abcdef0123456789abcdef").2 ≠ "" := by
  have h := empty_design_id_generates [] "t" Json.null
    "0123456789abcdef0123456789abcdef" (by decide) (by decide)
  exact ⟨h.1, h.2.1, h.2.2.2.2.2⟩

/-! ## C10 -/

/-- C10: export artifacts land in the same directory as design JSON
files, so an export whose caller-supplied filename is `<id>.json`
replaces the stored design `<id>` (a subsequent get hits a `json.load`
failure instead of the document), a save with identifier `<id>`
conversely replaces a prior export of that name, and neither operation
touches any other filename in the directory. -/
theorem export_design_same_directory (st : Store) (id tid : String) (dj : Json)
    (payload : String) (bs : List Nat) (hexS hexE : String)
    (hid : id ≠ "")
    (hpre : pyStartsWith payload "data:" = false)
    (hdec : base64Decode payload = some bs) :
    export_image (save_design st ⟨some id, tid, dj⟩ hexS).1 payload
        (some (id ++ ".json")) hexE =
      Except.ok
        (setFile (save_design st ⟨some id, tid, dj⟩ hexS).1 (id ++ ".json")
          (FileData.raw bs),
         id ++ ".json") ∧
    getFile
        (setFile (save_design st ⟨some id, tid, dj⟩ hexS).1 (id ++ ".json")
          (FileData.raw bs)) (id ++ ".json") =
      some (FileData.raw bs) ∧
    (get_design
        (setFile (save_design st ⟨some id, tid, dj⟩ hexS).1 (id ++ ".json")
          (FileData.raw bs)) id).1 = GetResult.loadError ∧
    getFile
        (save_design
          (setFile (save_design st ⟨some id, tid, dj⟩ hexS).1 (id ++ ".json")
            (FileData.raw bs)) ⟨some id, tid, dj⟩ hexS).1 (id ++ ".json") =
      some (FileData.design ⟨id, tid, dj⟩) ∧
    (∀ k, k ≠ id ++ ".json" →
      getFile (save_design st ⟨some id, tid, dj⟩ hexS).1 k = getFile st k ∧
      getFile
          (setFile (save_design st ⟨some id, tid, dj⟩ hexS).1 (id ++ ".json")
            (FileData.raw bs)) k =
        getFile (save_design st ⟨some id, tid, dj⟩ hexS).1 k) := by
  have hfn : pyOrStr (some (id ++ ".json"))
      ("export_" ++ strTake hexE 8 ++ ".png") = id ++ ".json" :=
    pyOrStr_some_ne _ _ (append_json_ne_empty id)
  have hexport := export_image_raw (save_design st ⟨some id, tid, dj⟩ hexS).1
    payload bs (some (id ++ ".json")) hexE hpre hdec
  rw [hfn] at hexport
  have hsave := save_design_some id hid
    (setFile (save_design st ⟨some id, tid, dj⟩ hexS).1 (id ++ ".json")
      (FileData.raw bs)) tid dj hexS
  refine ⟨hexport, getFile_setFile_self _ _ _, ?_, ?_, ?_⟩
  · simp [ get_design_eq, getFile_setFile_self]
  · simp only [hsave]
    exact getFile_setFile_self _ _ _
  · intro k hk
    have e1 := save_design_some id hid st tid dj hexS
    constructor
    · simp only [e1]
      exact getFile_setFile_ne _ _ _ _ hk
    · exact getFile_setFile_ne _ _ _ _ hk

/-- Witness for C10 at a concrete design and export payload. -/
theorem export_design_same_directory_witness :
    export_image (save_design [] ⟨some "d", "t", Json.null⟩ "h1").1
        (base64Encode [1, 2, 3]) (some ("d" ++ ".json")) "h2" =
      Except.ok
        (setFile (save_design [] ⟨some "d", "t", Json.null⟩ "h1").1
          ("d" ++ ".json") (FileData.raw [1, 2, 3]),
         "d" ++ ".json") ∧
    (get_design
        (setFile (save_design [] ⟨some "d", "t", Json.null⟩ "h1").1
          ("d" ++ ".json") (FileData.raw [1, 2, 3])) "d").1 =
      GetResult.loadError := by
  have h := export_design_same_directory [] "d" "t" Json.null
    (base64Encode [1, 2, 3]) [1, 2, 3] "h1" "h2" (by decide)
    (base64Encode_not_dataURI [1, 2, 3])
    (base64Decode_base64Encode [1, 2, 3] (by decide))
  exact ⟨h.1, h.2.2.1⟩

end TemplatesApp
